import Mathlib

/-!
# Verification of the kobosync job queue and hybrid sync protocol

Shallow embedding of the core of the `kobosync` repository:

* the persistent job queue (`src/kobold/job_queue.py`),
* the worker loop's per-job resolution logic (`src/kobosync/worker.py`),
* the three job handlers (`ingest.py`, `metadata_service.py`,
  `conversion_service.py`),
* the composite sync-token codec (`src/kobosync/utils/kobo_token.py`),
* the hybrid library-sync endpoint and its upstream proxy
  (`src/kobold/api/routes.py`, `src/kobosync/api/proxy.py`),
* the reading-state update endpoint (`src/kobold/api/routes.py`).

Modelling conventions:

* timestamps are `Int` seconds (Python `datetime` arithmetic has no
  overflow or truncation, so `Int` is the faithful carrier);
* UUIDs are opaque `Nat` (job ids) or `String` (book ids exchange with
  JSON payloads, where they travel as strings);
* the relational tables are Lean lists of records; a SQL `UPDATE ... WHERE
  id = x` is a `List.map` that rewrites the rows whose primary key
  matches (primary keys are unique in the store, which statements assume
  via `Nodup` hypotheses where it matters);
* `SELECT ... ORDER BY ... LIMIT 1` is a fold computing the row that is
  minimal under the `ORDER BY` key, leftmost-first among ties;
* external libraries (base64/orjson serialization, `datetime.isoformat`
  parsing/printing, the filesystem, pathlib string surgery, UUID parsing,
  the metadata resolver and the converter binary) are parameters of the
  model, supplied as plain function records.
-/

namespace Kobosync

/-! ## Data model: jobs (src/kobosync/models.py) -/

/-- `JobStatus` enum from `models.py`. -/
inductive JobStatus where
  | pending
  | processing
  | completed
  | failed
  | deadLetter
deriving DecidableEq, Repr

/-- `JobType` enum from `models.py`. -/
inductive JobType where
  | ingest
  | convert
  | metadata
deriving DecidableEq, Repr

/-- The job payload is an opaque JSON document; only the keys the queue
and the handlers actually read are modelled (`dedupe_key`, `event`,
`path`, `book_id`).  An absent key is `none`; Python's falsiness of `""`
for the string fields is handled at the use sites. -/
structure Payload where
  event : Option String := none
  path : Option String := none
  book_id : Option String := none
  dedupe_key : Option String := none
deriving DecidableEq, Repr

/-- `Job` table row from `models.py`. -/
structure Job where
  id : Nat
  type : JobType
  payload : Payload := {}
  status : JobStatus := .pending
  error_message : Option String := none
  created_at : Int
  started_at : Option Int := none
  completed_at : Option Int := none
  retry_count : Nat := 0
  max_retries : Nat := 3
  next_retry_at : Option Int := none
deriving DecidableEq, Repr

/-- `JOB_MAX_RETRIES` constant from `job_queue.py`. -/
def JOB_MAX_RETRIES : Nat := 3

/-- `JOB_STALE_MINUTES` constant from `job_queue.py`. -/
def JOB_STALE_MINUTES : Int := 30

/-! ## Job queue operations (src/kobold/job_queue.py) -/

/-- Python `str.lower()`, modelled over the character list (Lean's own
`String.toLower` is not kernel-reducible). -/
def pyLower (s : String) : String := ⟨s.data.map Char.toLower⟩

/-- Python `str.startswith(pre)`. -/
def pyStartsWith (s pre : String) : Bool := pre.data.isPrefixOf s.data

/-- Python `str.endswith(suf)`. -/
def pyEndsWith (s suf : String) : Bool := suf.data.isSuffixOf s.data

/-- Python `str.lstrip(c)`. -/
def pyLStrip (s : String) (c : Char) : String := ⟨s.data.dropWhile (· == c)⟩

/-- Truthiness of an optional string under Python's `if not s:` test:
`None` and `""` are falsy. -/
def optStrTruthy : Option String → Bool
  | none => false
  | some s => !s.data.isEmpty

/-- `JobQueue.add_job`: if a `deduplicate_key` is given and a `PENDING`
job of the same type already carries it in its payload, no insert happens
and `none` is returned; otherwise a fresh `PENDING` job (with the dedupe
key embedded into the payload when requested) is appended.  `now` is the
creation timestamp and `freshId` the primary key the store assigns. -/
def add_job (now : Int) (freshId : Nat) (jobType : JobType) (payload : Payload)
    (deduplicate_key : Option String) (q : List Job) : Option Job × List Job :=
  match deduplicate_key with
  | some k =>
      if q.any (fun j =>
          j.type == jobType && j.status == .pending && j.payload.dedupe_key == some k) then
        (none, q)
      else
        let job : Job :=
          { id := freshId, type := jobType,
            payload := { payload with dedupe_key := some k },
            status := .pending, created_at := now,
            max_retries := JOB_MAX_RETRIES }
        (some job, q ++ [job])
  | none =>
      let job : Job :=
        { id := freshId, type := jobType, payload := payload,
          status := .pending, created_at := now,
          max_retries := JOB_MAX_RETRIES }
      (some job, q ++ [job])

/-- The `ORDER BY next_retry_at ASC NULLS LAST, created_at ASC` key of
`fetch_next_job`, as a lexicographic linear order: a `NULL`
`next_retry_at` ranks after every non-`NULL` one (`false < true` on the
`isNone` component), then the retry-due time, then `created_at`. -/
def claimKey (j : Job) : (Bool ×ₗ Int) ×ₗ Int :=
  toLex (toLex (j.next_retry_at.isNone, j.next_retry_at.getD 0), j.created_at)

/-- Eligibility filter of `fetch_next_job`: `status == PENDING AND
(next_retry_at IS NULL OR next_retry_at <= now)`. -/
def eligible (now : Int) (j : Job) : Bool :=
  j.status == .pending &&
    (match j.next_retry_at with
     | none => true
     | some t => decide (t ≤ now))

/-- `SELECT ... ORDER BY key LIMIT 1` over a list: the leftmost row
minimal under `claimKey`. -/
def selectMin : List Job → Option Job
  | [] => none
  | j :: rest =>
      match selectMin rest with
      | none => some j
      | some m => if claimKey m < claimKey j then some m else some j

/-- `JobQueue.fetch_next_job`: select the eligible `PENDING` job minimal
under the claim order, flip it to `PROCESSING`, stamp `started_at := now`
and return it; return `none` (queue untouched) when nothing is
eligible. -/
def fetch_next_job (now : Int) (q : List Job) : Option Job × List Job :=
  match selectMin (q.filter (eligible now)) with
  | none => (none, q)
  | some j =>
      let j' : Job := { j with status := .processing, started_at := some now }
      (some j', q.map fun x => if x.id == j.id then j' else x)

/-- The row rewrite of `JobQueue.complete_job`: explicit `status`
argument wins, else a supplied `error` implies `FAILED`, else
`COMPLETED`; `error_message` is overwritten only when an error is given;
`completed_at` is stamped. -/
def completeUpdate (now : Int) (error : Option String) (status : Option JobStatus)
    (j : Job) : Job :=
  { j with
    status := match status with
      | some s => s
      | none => if error.isSome then .failed else .completed
    error_message := if error.isSome then error else j.error_message
    completed_at := some now }

/-- `JobQueue.complete_job`: rewrite the row with the given id (no-op
when the id is unknown). -/
def complete_job (now : Int) (jobId : Nat) (error : Option String)
    (status : Option JobStatus) (q : List Job) : List Job :=
  q.map fun x => if x.id == jobId then completeUpdate now error status x else x

/-- The row rewrite of `JobQueue.retry_job`: increment `retry_count`,
record the error, return to `PENDING`, and set `next_retry_at` to `now`
plus the supplied delay, defaulting to `10 * 2 ^ (retry_count - 1)`
seconds computed from the already-incremented count. -/
def retryUpdate (now : Int) (error : String) (delay_seconds : Option Int)
    (j : Job) : Job :=
  let newCount := j.retry_count + 1
  let delay : Int := match delay_seconds with
    | some d => d
    | none => 10 * 2 ^ (newCount - 1)
  { j with
    retry_count := newCount
    error_message := some error
    status := .pending
    next_retry_at := some (now + delay) }

/-- `JobQueue.retry_job`: rewrite the row with the given id (no-op when
the id is unknown). -/
def retry_job (now : Int) (jobId : Nat) (error : String)
    (delay_seconds : Option Int) (q : List Job) : List Job :=
  q.map fun x => if x.id == jobId then retryUpdate now error delay_seconds x else x

/-- The staleness test of `recover_stale_jobs`: `status == PROCESSING AND
started_at < now - 30 minutes`.  A SQL comparison against `NULL` is not
satisfied, so a `PROCESSING` row with no `started_at` is not stale. -/
def isStale (now : Int) (j : Job) : Bool :=
  j.status == .processing &&
    (match j.started_at with
     | some s => decide (s < now - JOB_STALE_MINUTES * 60)
     | none => false)

/-- The row rewrite of `recover_stale_jobs`: back to `PENDING`, clear
`started_at`, increment `retry_count`, stamp the recovery message. -/
def recoverUpdate (j : Job) : Job :=
  { j with
    status := .pending
    started_at := none
    retry_count := j.retry_count + 1
    error_message := some "Job recovered from stale state" }

/-- `JobQueue.recover_stale_jobs`: rewrite every stale row and return how
many rows were rewritten. -/
def recover_stale_jobs (now : Int) (q : List Job) : Nat × List Job :=
  ((q.filter (isStale now)).length,
   q.map fun x => if isStale now x then recoverUpdate x else x)

/-! ## Composite sync-token codec (src/kobosync/utils/kobo_token.py)

`to_base64` is `base64.b64encode(orjson.dumps(asdict(self)))`;
`from_base64` is `cls(**orjson.loads(base64.b64decode(s)))` wrapped in a
catch-all returning the all-`None` token.  The base64/orjson pair is an
external library; it is modelled as a `WireCodec` record serializing the
intermediate JSON document (key/value list with unique keys, as a Python
dict has).  The repository's own logic — `asdict` emitting all three
fields, and the dataclass constructor rejecting unknown keyword
arguments — is fully embedded. -/

/-- A JSON value occurring in the token document: the three fields are
typed `str | None` and are only ever serialized from those. -/
inductive JVal where
  | str (s : String)
  | null
deriving DecidableEq, Repr

/-- The intermediate JSON document: an object as key/value list (keys
unique, as in a Python dict). -/
abbrev Doc := List (String × JVal)

/-- `KoboSyncToken` dataclass. -/
structure KoboSyncToken where
  lastSuccessfulSyncPointId : Option String := none
  ongoingSyncPointId : Option String := none
  rawKoboSyncToken : Option String := none
deriving DecidableEq, Repr

/-- The all-`None` token `cls()` that every decode failure falls back to. -/
def KoboSyncToken.empty : KoboSyncToken := {}

/-- `Option String` to JSON value, as `orjson.dumps` serializes a
`str | None` dataclass field. -/
def jvalOf : Option String → JVal
  | none => .null
  | some s => .str s

/-- JSON value back to `Option String`. -/
def JVal.toOpt : JVal → Option String
  | .null => none
  | .str s => some s

/-- `asdict(self)` followed by `orjson.dumps`: the document always holds
exactly the three fields, in declaration order. -/
def KoboSyncToken.asdictDoc (t : KoboSyncToken) : Doc :=
  [("lastSuccessfulSyncPointId", jvalOf t.lastSuccessfulSyncPointId),
   ("ongoingSyncPointId", jvalOf t.ongoingSyncPointId),
   ("rawKoboSyncToken", jvalOf t.rawKoboSyncToken)]

/-- One keyword argument applied to the dataclass constructor
`cls(**data)`: a key that is not one of the three field names raises
`TypeError` (modelled as `none`). -/
def applyKw (t : KoboSyncToken) (kv : String × JVal) : Option KoboSyncToken :=
  if kv.1 = "lastSuccessfulSyncPointId" then
    some { t with lastSuccessfulSyncPointId := kv.2.toOpt }
  else if kv.1 = "ongoingSyncPointId" then
    some { t with ongoingSyncPointId := kv.2.toOpt }
  else if kv.1 = "rawKoboSyncToken" then
    some { t with rawKoboSyncToken := kv.2.toOpt }
  else
    none

/-- `cls(**data)`: fields default to `None`, each present key sets its
field, any unknown key raises. -/
def buildToken (d : Doc) : Option KoboSyncToken :=
  d.foldlM applyKw KoboSyncToken.empty

/-- The external base64+orjson wire layer: `dumps` is
`b64encode ∘ orjson.dumps`, `loads` is `orjson.loads ∘ b64decode`,
returning `none` when either step raises (or when the payload is not a
JSON object, in which case the constructor call raises anyway). -/
structure WireCodec where
  dumps : Doc → String
  loads : String → Option Doc

/-- `KoboSyncToken.to_base64`. -/
def to_base64 (c : WireCodec) (t : KoboSyncToken) : String :=
  c.dumps t.asdictDoc

/-- `KoboSyncToken.from_base64`: any failure — wire-level or a
`TypeError` from an unknown constructor keyword — is caught and yields
the all-`None` token. -/
def from_base64 (c : WireCodec) (s : String) : KoboSyncToken :=
  match c.loads s with
  | none => KoboSyncToken.empty
  | some d => (buildToken d).getD KoboSyncToken.empty

/-- A degenerate but honest wire layer used to instantiate closed
statements: it maps every document to `""` and parses everything back to
the one fixed document `d`, so it round-trips exactly on `d`. -/
def constCodec (d : Doc) : WireCodec :=
  { dumps := fun _ => "", loads := fun _ => some d }

/-! ## Data model: books (src/kobosync/models.py)

Float-valued display fields (`series_index`, `rating`) are outside the
embedding (they only feed presentation fields of the entitlement JSON and
no claim depends on them). -/

/-- `Book` table row.  `id` is the UUID rendered as the string it travels
as in payloads and entitlements. -/
structure Book where
  id : String
  title : String
  author : Option String := none
  description : Option String := none
  language : Option String := none
  file_path : String
  kepub_path : Option String := none
  cover_path : Option String := none
  file_hash : String
  file_size : Option Int := none
  file_format : Option String := none
  is_converted : Bool := false
  is_deleted : Bool := false
  deleted_at : Option Int := none
  added_at : Int := 0
  updated_at : Int := 0
deriving DecidableEq, Repr

/-- `Book.mark_updated`. -/
def Book.mark_updated (now : Int) (b : Book) : Book :=
  { b with updated_at := now }

/-- `Book.mark_deleted`. -/
def Book.mark_deleted (now : Int) (b : Book) : Book :=
  { b with is_deleted := true, deleted_at := some now, updated_at := now }

/-! ## Hybrid sync endpoint (src/kobold/api/routes.py, sync_library)
and its proxy (src/kobosync/api/proxy.py) -/

/-- The content of a `NewEntitlement` JSON object, restricted to the
fields the claims and the data model pin down; the remaining members of
`_book_to_entitlement`'s dict are URL/presentation constants derived from
the same book id and base URL. -/
structure NewEnt where
  id : String
  entitlementId : String
  title : String
  author : String
  description : String
  language : String
deriving DecidableEq, Repr

/-- One element of the sync response list: a locally-built new/updated
entitlement, a locally-built removal entry, or an upstream-returned entry
carried verbatim (its JSON text left opaque). -/
inductive SyncEntry where
  | newE (e : NewEnt)
  | removeE (entitlementId : String)
  | upstream (raw : String)
deriving DecidableEq, Repr

/-- `_book_to_entitlement`: the `"NewEntitlement"` object built for a
local book; `EntitlementId` and `Id` are both `str(book.id)`, `Author`
defaults to `"Unknown"`, `Description` to `""`, `Language` to `"en"`. -/
def bookToEntitlement (b : Book) : SyncEntry :=
  .newE
    { id := b.id
      entitlementId := b.id
      title := b.title
      author := b.author.getD "Unknown"
      description := b.description.getD ""
      language := b.language.getD "en" }

/-- External `datetime` functions used by the endpoint:
`datetime.fromisoformat` (may raise, hence `Option`) and
`datetime.now(UTC).isoformat()`. -/
structure TimeCodec where
  parseISO : String → Option Int
  formatISO : Int → String

/-- Case-insensitive header lookup (httpx response headers). -/
def httpxGet (k : String) (hs : List (String × String)) : Option String :=
  (hs.find? fun kv => pyLower kv.1 == pyLower k).map Prod.snd

/-- Exact-key dict lookup (a plain Python `dict` of headers). -/
def dictGet (k : String) (hs : List (String × String)) : Option String :=
  (hs.find? fun kv => kv.1 == k).map Prod.snd

/-- Python `dict[k] = v`: overwrite the existing exact key or append. -/
def dictSet (k v : String) (hs : List (String × String)) : List (String × String) :=
  if hs.any fun kv => kv.1 == k then
    hs.map fun kv => if kv.1 == k then (k, v) else kv
  else
    hs ++ [(k, v)]

/-- The upstream store's response as seen by `proxy_request`: a status
code, response headers, and — for the sync call — a body that may or may
not parse to a JSON list of entitlement objects (kept opaque as their
JSON text). -/
structure UpstreamResp where
  status : Nat
  headers : List (String × String)
  bodyEnts : Option (List String)
deriving Repr

/-- `KoboProxyService.proxy_request` with `include_sync_token=True`, as
invoked by `fetch_kobo_sync`, restricted to its observable result
(status, filtered response headers, body): on a raised transport error it
returns a synthetic 502 with no `x-kobo-*` headers; otherwise it copies
the upstream's `x-kobo-*`/`content-type` headers and, when the upstream
response carries an `X-Kobo-SyncToken` header (matched
case-insensitively), stores that raw value into the request's composite
token and re-encodes the composite under the exact `X-Kobo-SyncToken`
key.  This header processing is not conditioned on the status code. -/
def proxy_request_sync (c : WireCodec) (reqToken : KoboSyncToken)
    (upstream : Except String UpstreamResp) :
    Nat × List (String × String) × Option (List String) :=
  match upstream with
  | .error _ => (502, [("content-type", "application/json")], none)
  | .ok resp =>
      let respHeaders := resp.headers.filter fun kv =>
        (pyStartsWith (pyLower kv.1) "x-kobo-") || pyLower kv.1 == "content-type"
      let respHeaders :=
        match httpxGet "X-Kobo-SyncToken" resp.headers with
        | some upstreamToken =>
            let updated := { reqToken with rawKoboSyncToken := some upstreamToken }
            dictSet "X-Kobo-SyncToken" (to_base64 c updated) respHeaders
        | none => respHeaders
      (resp.status, respHeaders, resp.bodyEnts)

/-- `KoboProxyService.fetch_kobo_sync`: proxy the sync call, then parse
the body into an entitlement list only on a 200 (an unparsable body
degrades to `[]`). -/
def fetch_kobo_sync (c : WireCodec) (reqToken : KoboSyncToken)
    (upstream : Except String UpstreamResp) :
    Nat × List (String × String) × List String :=
  let (status, headers, body) := proxy_request_sync c reqToken upstream
  let ents := if status == 200 then (body.getD []) else []
  (status, headers, ents)

/-- The sync endpoint's response: the merged entitlement list, the
re-encoded composite token it sends back, and the pass-through
`X-Kobo-Sync` header if the upstream set one. -/
structure SyncResult where
  entries : List SyncEntry
  token : KoboSyncToken
  xKoboSyncHdr : Option String
deriving Repr

/-- The local-DB cursor extraction of `sync_library` (routes.py 114–125):
`datetime.fromisoformat` on `lastSuccessfulSyncPointId`, with a parse
failure logged and treated as no cursor. -/
def localCursor (tc : TimeCodec) (t : KoboSyncToken) : Option Int :=
  match t.lastSuccessfulSyncPointId with
  | none => none
  | some s => tc.parseISO s

/-- `sync_library` (routes.py 111–187), after token decode, given the
already-decoded request token and the triple `fetch_kobo_sync` returned:
local new/updated entitlements for non-deleted books past the cursor (all
of them on a cold start), removal entries for deleted books past the
cursor only when a cursor existed, upstream entries appended when the
upstream returned 200; the upstream half of the composite token is
overwritten from the proxied `X-Kobo-SyncToken` header whenever that
header is present (regardless of status), the local half is always
advanced to `now` and `ongoingSyncPointId` cleared. -/
def sync_library_core (c : WireCodec) (tc : TimeCodec) (now : Int)
    (books : List Book) (reqToken : KoboSyncToken)
    (koboStatus : Nat) (koboHeaders : List (String × String))
    (koboEnts : List String) : SyncResult :=
  let lastSyncLocal : Option Int := localCursor tc reqToken
  let newBooks := books.filter fun b =>
    !b.is_deleted &&
      (match lastSyncLocal with
       | none => true
       | some t => decide (t < b.updated_at))
  let entitlements := newBooks.map bookToEntitlement
  let entitlements :=
    match lastSyncLocal with
    | none => entitlements
    | some t =>
        let deletedBooks := books.filter fun b =>
          b.is_deleted && decide (t < b.updated_at)
        entitlements ++ deletedBooks.map fun b => .removeE b.id
  let entitlements :=
    if koboStatus == 200 then entitlements ++ koboEnts.map .upstream else entitlements
  let token := reqToken
  let token :=
    match dictGet "X-Kobo-SyncToken" koboHeaders with
    | some h => { token with rawKoboSyncToken := (from_base64 c h).rawKoboSyncToken }
    | none => token
  let token :=
    { token with
      lastSuccessfulSyncPointId := some (tc.formatISO now)
      ongoingSyncPointId := none }
  { entries := entitlements
    token := token
    xKoboSyncHdr := dictGet "X-Kobo-Sync" koboHeaders }

/-- The endpoint end to end for a given decoded request token: call the
proxy, then merge. -/
def sync_pipeline (c : WireCodec) (tc : TimeCodec) (now : Int)
    (books : List Book) (reqToken : KoboSyncToken)
    (upstream : Except String UpstreamResp) : SyncResult :=
  let (status, headers, ents) := fetch_kobo_sync c reqToken upstream
  sync_library_core c tc now books reqToken status headers ents

/-! ## Reading state (src/kobosync/models.py, routes.py 379–452) -/

/-- `ReadingState` table row (the `id` surrogate key is irrelevant to the
claims; rows are keyed by the unique `book_id`). -/
structure ReadingState where
  book_id : String
  progress_percent : Int := 0
  status : String := "Unread"
  last_modified : Int := 0
  location_value : Option String := none
  location_type : Option String := none
  location_source : Option String := none
  spent_reading_minutes : Int := 0
  remaining_time_minutes : Int := 0
deriving DecidableEq, Repr

/-- The first element of the request body's `ReadingStates` list, with the
optional sub-objects the handler reads (`.get` with a fallback keeps the
current value when a key is absent; an absent `Location` behaves as an
empty dict). -/
structure IncomingState where
  statusInfo : Option (Option String) := none
  statistics : Option (Option Int × Option Int) := none
  bookmarkProgress : Option (Option Int) := none
  bookmarkLocation : Option (Option String × Option String × Option String) := none
  hasBookmark : Bool := false
deriving Repr

/-- The field application performed inside `update_reading_state` on a
fresh row (routes.py 419–442): each present sub-object overwrites the
fields it carries, then `mark_updated` stamps `last_modified := now`. -/
def applyIncoming (now : Int) (inc : IncomingState) (st : ReadingState) : ReadingState :=
  let st :=
    match inc.statusInfo with
    | some s => { st with status := s.getD st.status }
    | none => st
  let st :=
    match inc.statistics with
    | some (spent, remaining) =>
        { st with
          spent_reading_minutes := spent.getD st.spent_reading_minutes
          remaining_time_minutes := remaining.getD st.remaining_time_minutes }
    | none => st
  let st :=
    if inc.hasBookmark then
      let st :=
        match inc.bookmarkProgress with
        | some p => { st with progress_percent := p.getD st.progress_percent }
        | none => st
      match inc.bookmarkLocation with
      | some (v, ty, src) =>
          { st with
            location_value := v <|> st.location_value
            location_type := ty <|> st.location_type
            location_source := src <|> st.location_source }
      | none => st
    else st
  { st with last_modified := now }

/-- `update_reading_state` for a local book with a well-formed body
(routes.py 411–452): look up the row for `book_id`; when none exists,
create one from the incoming fields and persist it; when one exists, the
handler body performs no update (the whole field-application block is
inside the `if not state:` branch) and the table is returned unchanged. -/
def update_reading_state_local (now : Int) (bookId : String)
    (inc : IncomingState) (states : List ReadingState) : List ReadingState :=
  match states.find? fun s => s.book_id == bookId with
  | some _ => states
  | none => states ++ [applyIncoming now inc { book_id := bookId }]

/-! ## Job handlers (src/kobosync/services/ingest.py,
src/kobold/services/metadata_service.py,
src/kobosync/services/conversion_service.py) -/

/-- `SUPPORTED_EXTENSIONS` from constants.py. -/
def SUPPORTED_EXTENSIONS : List String :=
  [".epub", ".pdf", ".cbz", ".cbr", ".kepub.epub"]

/-- The external world a handler touches: the filesystem, pathlib's
string surgery, UUID parsing, the metadata resolver, and the converter.
`fileHash` is `Option` because hashing can raise (the raise propagates
out of the handler). -/
structure HandlerEnv where
  pathExists : String → Bool
  fileSize : String → Int
  fileHash : String → Option String
  suffix : String → String
  stem : String → String
  isUUID : String → Bool
  resolveMetadata : Book → Option (List (String × String))
  convert : String → String → Option String
  convertEpub : Bool
  deleteOriginal : Bool
  embedMetadata : Bool

/-- The system state a worker iteration acts on: the job table and the
book catalog.  (Reading states are only touched by the HTTP layer.) -/
structure SysState where
  jobs : List Job
  books : List Book
deriving Repr

/-- `IngestService._handle_delete`: soft-delete the first book matching
the path, if any. -/
def handleDelete (now : Int) (path : String) (books : List Book) : List Book :=
  match books.find? fun b => b.file_path == path with
  | none => books
  | some b =>
      books.map fun x => if x.id == b.id then x.mark_deleted now else x

/-- `IngestService._handle_add` (ingest.py 72–176): skip when the file is
gone or its extension unsupported; hash it (a hashing failure
propagates); re-home an existing book found by `(size, hash)`; else
refresh an existing book found by exact path; else create a new book and
enqueue a follow-on `METADATA` job plus, when configured and the file is
a plain `.epub`, a follow-on `CONVERT` job.  `freshBookId`,
`freshJobId₁/₂` model the ids the store mints. -/
def handleAdd (env : HandlerEnv) (now : Int) (freshBookId : String)
    (freshJobId₁ freshJobId₂ : Nat) (path : String) (st : SysState) :
    Except String SysState :=
  if !env.pathExists path then
    .ok st
  else if !SUPPORTED_EXTENSIONS.contains (pyLower (env.suffix path)) then
    .ok st
  else
    let size := env.fileSize path
    match env.fileHash path with
    | none => .error "hashing failed"
    | some hash =>
        match st.books.find? fun b => b.file_size == some size && b.file_hash == hash with
        | some b =>
            if b.file_path != path then
              let b' := { b with
                file_path := path, is_deleted := false, deleted_at := none,
                updated_at := now }
              .ok { st with books := st.books.map fun x => if x.id == b.id then b' else x }
            else
              .ok st
        | none =>
            match st.books.find? fun b => b.file_path == path with
            | some b =>
                let b' := { b with
                  file_hash := hash, file_size := some (env.fileSize path),
                  is_deleted := false, deleted_at := none, updated_at := now }
                .ok { st with books := st.books.map fun x => if x.id == b.id then b' else x }
            | none =>
                let newBook : Book :=
                  { id := freshBookId
                    title := env.stem path
                    file_path := path
                    file_hash := hash
                    file_size := some size
                    file_format := some (pyLStrip (pyLower (env.suffix path)) '.')
                    is_converted := false
                    added_at := now
                    updated_at := now }
                let books' := st.books ++ [newBook]
                let jobs' := (add_job now freshJobId₁ .metadata
                  { book_id := some freshBookId } none st.jobs).2
                let isEpub := pyLower (env.suffix path) == ".epub"
                let isAlreadyKepub := pyEndsWith (pyLower (env.stem path)) ".kepub"
                let jobs' :=
                  if env.convertEpub && isEpub && !isAlreadyKepub then
                    (add_job now freshJobId₂ .convert
                      { book_id := some freshBookId } none jobs').2
                  else jobs'
                .ok { jobs := jobs', books := books' }

/-- `IngestService.process_job` (ingest.py 35–52): a falsy `path` returns
normally; an event other than `"ADD"`/`"DELETE"` logs and returns
normally; otherwise dispatch. -/
def ingestProcessJob (env : HandlerEnv) (now : Int) (freshBookId : String)
    (freshJobId₁ freshJobId₂ : Nat) (payload : Payload) (st : SysState) :
    Except String SysState :=
  if !optStrTruthy payload.path then
    .ok st
  else
    let path := payload.path.getD ""
    match payload.event with
    | some "DELETE" => .ok { st with books := handleDelete now path st.books }
    | some "ADD" => handleAdd env now freshBookId freshJobId₁ freshJobId₂ path st
    | _ => .ok st

/-- The write-back-on-diff loop of the metadata handler, restricted to
the known `Book` columns the resolver can return (`setattr` on a fixed
model); `none` in the resolver output means the field was not returned
(`value is not None` guard). -/
def applyMetaField (now : Int) (b : Book) (kv : String × String) : Book × Bool :=
  let (field, value) := kv
  if field = "title" then
    if b.title ≠ value then ({ b with title := value, updated_at := now }, true)
    else (b, false)
  else if field = "author" then
    if b.author ≠ some value then ({ b with author := some value, updated_at := now }, true)
    else (b, false)
  else if field = "description" then
    if b.description ≠ some value then
      ({ b with description := some value, updated_at := now }, true)
    else (b, false)
  else if field = "language" then
    if b.language ≠ some value then
      ({ b with language := some value, updated_at := now }, true)
    else (b, false)
  else if field = "cover_path" then
    if b.cover_path ≠ some value then
      ({ b with cover_path := some value, updated_at := now }, true)
    else (b, false)
  else
    (b, false)

/-- `MetadataJobService.process_job` (metadata_service.py 32–108): a
falsy `book_id` returns normally; a non-UUID `book_id` raises
(`UUID(...)` → `ValueError`); a UUID matching no book returns normally;
otherwise resolve metadata (no result → normal return) and write back
only changed fields.  The cover download/embed step mutates no modelled
state. -/
def metadataProcessJob (env : HandlerEnv) (now : Int) (payload : Payload)
    (books : List Book) : Except String (List Book) :=
  if !optStrTruthy payload.book_id then
    .ok books
  else
    let idStr := payload.book_id.getD ""
    if !env.isUUID idStr then
      .error "ValueError: badly formed UUID"
    else
      match books.find? fun b => b.id == idStr with
      | none => .ok books
      | some b =>
          match env.resolveMetadata b with
          | none => .ok books
          | some fields =>
              let b' := (fields.foldl
                (fun acc kv =>
                  let (nb, changed) := applyMetaField now acc.1 kv
                  (nb, acc.2 || changed))
                (b, false)).1
              .ok (books.map fun x => if x.id == b.id then b' else x)

/-- `ConversionJobService.process_job` (conversion_service.py 32–84): a
falsy `book_id` returns normally; a non-UUID `book_id` raises; a UUID
matching no book returns normally; an already-converted book returns
normally; a missing source file raises `FileNotFoundError`; a `None`
converter result raises `RuntimeError`; on success the kepub path is
recorded and the converted flag set. -/
def conversionProcessJob (env : HandlerEnv) (now : Int) (payload : Payload)
    (books : List Book) : Except String (List Book) :=
  if !optStrTruthy payload.book_id then
    .ok books
  else
    let idStr := payload.book_id.getD ""
    if !env.isUUID idStr then
      .error "ValueError: badly formed UUID"
    else
      match books.find? fun b => b.id == idStr with
      | none => .ok books
      | some b =>
          if b.is_converted then
            .ok books
          else if !env.pathExists b.file_path then
            .error "FileNotFoundError"
          else
            match env.convert b.file_path (b.file_path ++ ".kepub.epub") with
            | none => .error "RuntimeError: Conversion returned no output path"
            | some kepubPath =>
                let b' := { b with
                  kepub_path := some kepubPath, is_converted := true,
                  updated_at := now }
                .ok (books.map fun x => if x.id == b.id then b' else x)

/-! ## Worker resolution (src/kobosync/worker.py 60–140) -/

/-- Dispatch one claimed job to its handler (worker.py 78–84).  The
`JobType` enum is exhaustive here, so the unknown-type branch of the
Python `match` is unreachable in the model. -/
def dispatch (env : HandlerEnv) (now : Int) (freshBookId : String)
    (freshJobId₁ freshJobId₂ : Nat) (j : Job) (st : SysState) :
    Except String SysState :=
  match j.type with
  | .ingest => ingestProcessJob env now freshBookId freshJobId₁ freshJobId₂ j.payload st
  | .metadata => (metadataProcessJob env now j.payload st.books).map
      fun bks => { st with books := bks }
  | .convert => (conversionProcessJob env now j.payload st.books).map
      fun bks => { st with books := bks }

/-- The worker's resolution of one claimed job (worker.py 77–109): on
handler success `complete_job` (implicit `COMPLETED`); on a raised
exception, retry when `retry_count < max_retries`, else dead-letter.
Every failure modelled here is raised before the handler's first commit,
so the pre-handler state is what the failure branch resolves against. -/
def workerHandleClaimed (env : HandlerEnv) (now : Int) (freshBookId : String)
    (freshJobId₁ freshJobId₂ : Nat) (j : Job) (st : SysState) : SysState :=
  match dispatch env now freshBookId freshJobId₁ freshJobId₂ j st with
  | .ok st' => { st' with jobs := complete_job now j.id none none st'.jobs }
  | .error e =>
      if j.retry_count < j.max_retries then
        { st with jobs := retry_job now j.id e none st.jobs }
      else
        { st with jobs := complete_job now j.id (some e) (some .deadLetter) st.jobs }

/-! ## Derived predicates and concrete instances used by the statements -/

/-- The job state machine of the spec: a row keeps its status or moves
`Pending → Processing`, `Processing → {Completed, Failed, DeadLetter}`,
or `Processing → Pending` (retry/recovery). -/
def statusStepOK (old new : JobStatus) : Prop :=
  old = new
  ∨ (old = .pending ∧ new = .processing)
  ∨ (old = .processing ∧ (new = .completed ∨ new = .failed ∨ new = .deadLetter))
  ∨ (old = .processing ∧ new = .pending)

/-- Row-by-row status conformance of one table rewrite to the state
machine. -/
def jobsStep (q q' : List Job) : Prop :=
  List.Forall₂ (fun o n => statusStepOK o.status n.status) q q'

/-- The retry ceiling as the spec states it, as a table invariant. -/
def ceilInv (q : List Job) : Prop :=
  ∀ x ∈ q, x.retry_count ≤ x.max_retries

/-- The claim order of C1, modelled from the spec's words: `next_retry_at`
ascending with *nulls first*, then `created_at` ascending.  (The source
orders nulls last; this definition exists to state the refutation.) -/
def specNullsFirstKey (j : Job) : (Bool ×ₗ Int) ×ₗ Int :=
  toLex (toLex (j.next_retry_at.isSome, j.next_retry_at.getD 0), j.created_at)

/-- Present value of a key in a token document, with a present-`null`
and an absent key both collapsing to `none` — the "absent field → null"
reading of the decoded token. -/
def docField (d : Doc) (k : String) : Option String :=
  ((d.find? fun kv => kv.1 == k).map Prod.snd).bind JVal.toOpt

/-- The three dataclass field names accepted by the constructor. -/
def knownKey (k : String) : Bool :=
  k == "lastSuccessfulSyncPointId" || k == "ongoingSyncPointId" || k == "rawKoboSyncToken"

/-- Value a key contributes to a token field built over a base token:
the key's value when present, the base field otherwise. -/
def mergeField (d : Doc) (k : String) (base : Option String) : Option String :=
  match d.find? fun kv => kv.1 == k with
  | some kv => kv.2.toOpt
  | none => base

/-- A wire layer whose `loads` always fails, instantiating the malformed
input branch. -/
def failCodec : WireCodec :=
  { dumps := fun _ => "", loads := fun _ => none }

/-- The handler-payload shapes of claim C10: an ingest payload with a
falsy path or an event other than `ADD`/`DELETE`; a metadata/convert
payload whose `book_id` is falsy, or is a well-formed UUID matching no
catalog row. -/
def malformedFor (env : HandlerEnv) (books : List Book) (j : Job) : Prop :=
  match j.type with
  | .ingest =>
      optStrTruthy j.payload.path = false
      ∨ (j.payload.event ≠ some "ADD" ∧ j.payload.event ≠ some "DELETE")
  | .metadata | .convert =>
      optStrTruthy j.payload.book_id = false
      ∨ (env.isUUID (j.payload.book_id.getD "") = true
         ∧ ∀ b ∈ books, b.id ≠ j.payload.book_id.getD "")

/-- A fresh job with no retry schedule, enqueued first. -/
def jobA : Job := { id := 0, type := .ingest, created_at := 0 }

/-- A retried job whose retry delay elapsed, enqueued later. -/
def jobB : Job :=
  { id := 1, type := .ingest, created_at := 10, next_retry_at := some 5 }

/-- A `PROCESSING` job at the retry ceiling, abandoned long ago. -/
def jobStale : Job :=
  { id := 7, type := .metadata, status := .processing, created_at := 0,
    started_at := some 0, retry_count := 3, max_retries := 3 }

/-- A sample token with one field of each flavour. -/
def tokenSample : KoboSyncToken :=
  { lastSuccessfulSyncPointId := some "2024-01-01T00:00:00", rawKoboSyncToken := some "up" }

/-- The request token of the C4 counterexample: the client's stale
upstream cursor. -/
def tokC4 : KoboSyncToken := { rawKoboSyncToken := some "OLD" }

/-- A non-success upstream response that nevertheless carries a sync-token
header. -/
def respC4 : UpstreamResp :=
  { status := 500, headers := [("X-Kobo-SyncToken", "RAWUP")], bodyEnts := none }

/-- A wire layer that round-trips exactly the composite document the C4
pipeline produces. -/
def codecC4 : WireCodec :=
  constCodec (KoboSyncToken.asdictDoc { rawKoboSyncToken := some "RAWUP" })

/-- A trivial time layer for closed instances. -/
def tcTriv : TimeCodec :=
  { parseISO := fun _ => none, formatISO := fun _ => "NOW" }

/-- An existing reading-state row for book `"B"` with no progress. -/
def rsExisting : ReadingState := { book_id := "B" }

/-- An incoming reading-state body carrying a bookmark at 50%. -/
def incProgress : IncomingState :=
  { hasBookmark := true, bookmarkProgress := some (some 50) }

/-- A trivial handler environment for closed instances. -/
def envTriv : HandlerEnv :=
  { pathExists := fun _ => false
    fileSize := fun _ => 0
    fileHash := fun _ => none
    suffix := fun _ => ""
    stem := fun _ => ""
    isUUID := fun _ => true
    resolveMetadata := fun _ => none
    convert := fun _ _ => none
    convertEpub := false
    deleteOriginal := false
    embedMetadata := false }

/-- A metadata job whose payload names no book. -/
def jobNoBookId : Job := { id := 3, type := .metadata, created_at := 0 }

/-- A live catalog row updated at time 5. -/
def bookX : Book :=
  { id := "BX", title := "Test Book", file_path := "/lib/x.epub",
    file_hash := "abc123hash", updated_at := 5 }

/-- A soft-deleted catalog row updated at time 7. -/
def bookDel : Book :=
  { id := "BD", title := "Gone", file_path := "/lib/gone.epub",
    file_hash := "h2", is_deleted := true, deleted_at := some 7, updated_at := 7 }

/-! ## Codec lemmas -/

lemma applyKw_last (t : KoboSyncToken) (v : JVal) :
    applyKw t ("lastSuccessfulSyncPointId", v)
      = some { t with lastSuccessfulSyncPointId := v.toOpt } := rfl

lemma applyKw_ongoing (t : KoboSyncToken) (v : JVal) :
    applyKw t ("ongoingSyncPointId", v)
      = some { t with ongoingSyncPointId := v.toOpt } := rfl

lemma applyKw_raw (t : KoboSyncToken) (v : JVal) :
    applyKw t ("rawKoboSyncToken", v)
      = some { t with rawKoboSyncToken := v.toOpt } := rfl

lemma applyKw_unknown (t : KoboSyncToken) (k : String) (v : JVal)
    (hk : knownKey k = false) : applyKw t (k, v) = none := by
  unfold knownKey at hk
  simp only [Bool.or_eq_false_iff, beq_eq_false_iff_ne, ne_eq] at hk
  unfold applyKw
  rw [if_neg hk.1.1, if_neg hk.1.2, if_neg hk.2]

lemma applyKw_known (t : KoboSyncToken) (k : String) (v : JVal)
    (hk : knownKey k = true) : ∃ t', applyKw t (k, v) = some t' := by
  unfold knownKey at hk
  simp only [Bool.or_eq_true, beq_iff_eq] at hk
  rcases hk with (h | h) | h <;> subst h
  · exact ⟨_, applyKw_last t v⟩
  · exact ⟨_, applyKw_ongoing t v⟩
  · exact ⟨_, applyKw_raw t v⟩

lemma foldlM_applyKw_unknown (d : Doc) :
    ∀ t : KoboSyncToken, (∃ kv ∈ d, knownKey kv.1 = false) →
      d.foldlM applyKw t = none := by
  induction d with
  | nil => intro t h; rcases h with ⟨kv, hmem, _⟩; simp at hmem
  | cons hd tl ih =>
      intro t h
      obtain ⟨k₀, v₀⟩ := hd
      rcases h with ⟨kv, hmem, hbad⟩
      rcases List.mem_cons.mp hmem with rfl | hmemtl
      · simp [List.foldlM_cons, applyKw_unknown t k₀ v₀ hbad]
      · cases hhd : knownKey k₀ with
        | false => simp [List.foldlM_cons, applyKw_unknown t k₀ v₀ hhd]
        | true =>
            obtain ⟨t', ht'⟩ := applyKw_known t k₀ v₀ hhd
            simp only [List.foldlM_cons, ht', Option.bind_eq_bind, Option.some_bind]
            exact ih t' ⟨kv, hmemtl, hbad⟩

lemma mergeField_cons_self (k : String) (v : JVal) (rest : Doc)
    (base : Option String) :
    mergeField ((k, v) :: rest) k base = v.toOpt := by
  unfold mergeField
  rw [List.find?_cons_of_pos _ (by simp)]

lemma mergeField_cons_ne (k₀ : String) (v : JVal) (rest : Doc) (k : String)
    (h : k₀ ≠ k) (base : Option String) :
    mergeField ((k₀, v) :: rest) k base = mergeField rest k base := by
  unfold mergeField
  rw [List.find?_cons_of_neg _ (by simp [h])]

lemma mergeField_not_mem (rest : Doc) (k : String)
    (h : k ∉ rest.map Prod.fst) (base : Option String) :
    mergeField rest k base = base := by
  unfold mergeField
  rw [List.find?_eq_none.mpr]
  intro kv hkv
  simp only [beq_iff_eq]
  intro heq
  exact h (heq ▸ List.mem_map_of_mem Prod.fst hkv)

lemma foldlM_applyKw_known (d : Doc) :
    ∀ t : KoboSyncToken, (∀ kv ∈ d, knownKey kv.1 = true) →
      (d.map Prod.fst).Nodup →
      d.foldlM applyKw t = some
        { lastSuccessfulSyncPointId :=
            mergeField d "lastSuccessfulSyncPointId" t.lastSuccessfulSyncPointId
          ongoingSyncPointId :=
            mergeField d "ongoingSyncPointId" t.ongoingSyncPointId
          rawKoboSyncToken :=
            mergeField d "rawKoboSyncToken" t.rawKoboSyncToken } := by
  induction d with
  | nil =>
      intro t _ _
      simp [List.foldlM, mergeField]
  | cons hd tl ih =>
      intro t hknown hnd
      obtain ⟨k₀, v₀⟩ := hd
      have hk₀ := hknown (k₀, v₀) (List.mem_cons_self _ _)
      have hknotin : k₀ ∉ tl.map Prod.fst := by
        simp only [List.map_cons, List.nodup_cons] at hnd
        exact hnd.1
      have hndtl : (tl.map Prod.fst).Nodup := by
        simp only [List.map_cons, List.nodup_cons] at hnd
        exact hnd.2
      have hknowntl : ∀ kv ∈ tl, knownKey kv.1 = true :=
        fun kv hkv => hknown kv (List.mem_cons_of_mem _ hkv)
      unfold knownKey at hk₀
      simp only [Bool.or_eq_true, beq_iff_eq] at hk₀
      rcases hk₀ with (rfl | rfl) | rfl
      · rw [mergeField_cons_self, mergeField_cons_ne _ _ _ _ (by decide),
          mergeField_cons_ne _ _ _ _ (by decide),
          ← mergeField_not_mem tl "lastSuccessfulSyncPointId" hknotin v₀.toOpt]
        simp only [List.foldlM_cons, applyKw_last, Option.bind_eq_bind,
          Option.some_bind]
        exact ih _ hknowntl hndtl
      · rw [mergeField_cons_self, mergeField_cons_ne _ _ _ _ (by decide),
          mergeField_cons_ne _ _ _ _ (by decide),
          ← mergeField_not_mem tl "ongoingSyncPointId" hknotin v₀.toOpt]
        simp only [List.foldlM_cons, applyKw_ongoing, Option.bind_eq_bind,
          Option.some_bind]
        exact ih _ hknowntl hndtl
      · rw [mergeField_cons_self, mergeField_cons_ne _ _ _ _ (by decide),
          mergeField_cons_ne _ _ _ _ (by decide),
          ← mergeField_not_mem tl "rawKoboSyncToken" hknotin v₀.toOpt]
        simp only [List.foldlM_cons, applyKw_raw, Option.bind_eq_bind,
          Option.some_bind]
        exact ih _ hknowntl hndtl

/-! ## Claim C5: token round-trip -/

/-- C5: for every composite sync token, with fields arbitrary strings or
null, decoding the encoding returns the token field for field — given
that the external base64/orjson wire layer hands the serialized document
back intact (which `b64decode ∘ b64encode` and
`orjson.loads ∘ orjson.dumps` do). -/
theorem token_encode_decode_roundtrip (c : WireCodec) (t : KoboSyncToken)
    (h : c.loads (c.dumps t.asdictDoc) = some t.asdictDoc) :
    from_base64 c (to_base64 c t) = t := by
  unfold from_base64 to_base64
  rw [h]
  cases t with
  | mk last ongoing raw => cases last <;> cases ongoing <;> cases raw <;> rfl

/-- Witness for C5 at a concrete token, with a wire layer that returns
its document intact. -/
theorem token_encode_decode_roundtrip_witness :
    from_base64 (constCodec tokenSample.asdictDoc)
        (to_base64 (constCodec tokenSample.asdictDoc) tokenSample) = tokenSample :=
  token_encode_decode_roundtrip (constCodec tokenSample.asdictDoc) tokenSample rfl

/-! ## Claim C6: token decode robustness -/

/-- C6 counterexample: a well-formed encoded document that carries a
known field alongside one unknown field decodes to the all-null token —
the dataclass constructor raises `TypeError` on the unknown keyword and
the catch-all swallows the whole document — so the known field that was
present is not preserved, contrary to the claim.  (The wire layer here
stands for the base64/JSON encoding of
`{"lastSuccessfulSyncPointId": "x", "SomeFutureField": "y"}`.) -/
theorem token_decode_unknown_field_drops_present :
    from_base64
        (constCodec [("lastSuccessfulSyncPointId", JVal.str "x"),
                     ("SomeFutureField", JVal.str "y")]) "ignored"
      = KoboSyncToken.empty
    ∧ KoboSyncToken.empty.lastSuccessfulSyncPointId ≠ some "x" := by
  exact ⟨rfl, by simp [KoboSyncToken.empty]⟩

/-- C6 (amended): decode is total with an all-null fallback — a
wire-level failure yields the all-null token; a document whose keys are
all known field names decodes with each absent field null and each
present field preserved; but a document containing any unknown key
decodes to the all-null token, dropping its present known fields. -/
theorem token_decode_fallback_spec (c : WireCodec) (s : String) :
    (c.loads s = none → from_base64 c s = KoboSyncToken.empty)
    ∧ (∀ d, c.loads s = some d → (d.map Prod.fst).Nodup →
        ((∀ kv ∈ d, knownKey kv.1 = true) →
          from_base64 c s =
            { lastSuccessfulSyncPointId := docField d "lastSuccessfulSyncPointId"
              ongoingSyncPointId := docField d "ongoingSyncPointId"
              rawKoboSyncToken := docField d "rawKoboSyncToken" })
        ∧ ((∃ kv ∈ d, knownKey kv.1 = false) →
            from_base64 c s = KoboSyncToken.empty)) := by
  constructor
  · intro h
    unfold from_base64
    rw [h]
  · intro d hd hnd
    constructor
    · intro hknown
      unfold from_base64
      rw [hd]
      show (List.foldlM applyKw KoboSyncToken.empty d).getD KoboSyncToken.empty = _
      rw [foldlM_applyKw_known d KoboSyncToken.empty hknown hnd]
      simp only [Option.getD_some]
      have hfield : ∀ k, mergeField d k (none : Option String) = docField d k := by
        intro k
        unfold mergeField docField
        cases hf : d.find? fun kv => kv.1 == k <;> simp [hf]
      rw [show KoboSyncToken.empty.lastSuccessfulSyncPointId = none from rfl,
        show KoboSyncToken.empty.ongoingSyncPointId = none from rfl,
        show KoboSyncToken.empty.rawKoboSyncToken = none from rfl,
        hfield, hfield, hfield]
    · intro hbad
      unfold from_base64
      rw [hd]
      show (List.foldlM applyKw KoboSyncToken.empty d).getD KoboSyncToken.empty = _
      rw [foldlM_applyKw_unknown d KoboSyncToken.empty hbad]
      rfl

/-- Witness for C6 (amended) at concrete inputs: a failing wire layer
falls back to the all-null token; a one-field document decodes with the
two absent fields null; an unknown key wipes the document. -/
theorem token_decode_fallback_spec_witness :
    from_base64 failCodec "not valid" = KoboSyncToken.empty
    ∧ from_base64 (constCodec [("rawKoboSyncToken", JVal.str "z")]) ""
        = { lastSuccessfulSyncPointId := none, ongoingSyncPointId := none,
            rawKoboSyncToken := some "z" }
    ∧ from_base64 (constCodec [("lastSuccessfulSyncPointId", JVal.str "x"),
        ("Bogus", JVal.null)]) "" = KoboSyncToken.empty := by
  refine ⟨(token_decode_fallback_spec failCodec "not valid").1 rfl, ?_, ?_⟩
  · exact ((token_decode_fallback_spec
      (constCodec [("rawKoboSyncToken", JVal.str "z")]) "").2 _ rfl
      (by decide)).1 (by decide)
  · exact ((token_decode_fallback_spec
      (constCodec [("lastSuccessfulSyncPointId", JVal.str "x"),
        ("Bogus", JVal.null)]) "").2 _ rfl (by decide)).2
      ⟨("Bogus", JVal.null), by decide⟩

/-! ## Claim C7: retry_job semantics and backoff monotonicity -/

/-- C7: `retry_job` is a no-op on an unknown id; on the existing row it
increments `retry_count`, returns the status to `Pending`, records the
error, and sets `next_retry_at = now + delay`, the delay defaulting to
`10 * 2 ^ (retry_count - 1)` seconds over the incremented count; two
successive defaulted retries therefore produce strictly increasing
`next_retry_at` gaps. -/
theorem retry_job_spec (now : Int) (jobId : Nat) (e : String) (d : Option Int)
    (q : List Job) :
    ((∀ x ∈ q, x.id ≠ jobId) → retry_job now jobId e d q = q)
    ∧ (retry_job now jobId e d q =
        q.map fun x => if x.id == jobId then retryUpdate now e d x else x)
    ∧ (∀ j : Job,
        (retryUpdate now e d j).retry_count = j.retry_count + 1
        ∧ (retryUpdate now e d j).status = .pending
        ∧ (retryUpdate now e d j).error_message = some e
        ∧ (retryUpdate now e d j).next_retry_at =
            some (now + d.getD (10 * 2 ^ (j.retry_count + 1 - 1))))
    ∧ (∀ (j : Job) (n₁ n₂ : Int) (e₁ e₂ : String),
        ∃ t₁ t₂ : Int,
          (retryUpdate n₁ e₁ none j).next_retry_at = some t₁
          ∧ (retryUpdate n₂ e₂ none (retryUpdate n₁ e₁ none j)).next_retry_at = some t₂
          ∧ t₁ - n₁ < t₂ - n₂) := by
  refine ⟨?_, rfl, ?_, ?_⟩
  · intro h
    unfold retry_job
    have hx : ∀ x ∈ q, (if x.id == jobId then retryUpdate now e d x else x) = x := by
      intro x hxm
      rw [if_neg (by simp [h x hxm])]
    rw [List.map_congr_left hx]
    exact List.map_id' q
  · intro j
    refine ⟨rfl, rfl, rfl, ?_⟩
    cases d <;> rfl
  · intro j n₁ n₂ e₁ e₂
    refine ⟨n₁ + 10 * 2 ^ j.retry_count, n₂ + 10 * 2 ^ (j.retry_count + 1), rfl, rfl, ?_⟩
    have hp : (0 : Int) < 2 ^ j.retry_count := pow_pos (by norm_num) _
    have hs : (2 : Int) ^ (j.retry_count + 1) = 2 ^ j.retry_count * 2 := pow_succ 2 _
    rw [hs]
    have h1 : n₁ + 10 * 2 ^ j.retry_count - n₁ = 10 * 2 ^ j.retry_count := by ring
    have h2 : n₂ + 10 * (2 ^ j.retry_count * 2) - n₂ = 20 * 2 ^ j.retry_count := by ring
    rw [h1, h2]
    nlinarith [hp]

/-- Witness for C7: on an empty queue the unknown-id call is a no-op. -/
theorem retry_job_spec_witness : retry_job 0 5 "boom" none [] = [] :=
  (retry_job_spec 0 5 "boom" none []).1 (by intro x hx; simp at hx)

/-! ## Claim C8: stale-job recovery -/

/-- C8: `recover_stale_jobs` rewrites exactly the `Processing` rows whose
`started_at` predates the 30-minute threshold — setting them `Pending`
with `started_at` cleared, `retry_count` incremented and the recovery
message stamped — returns how many rows it rewrote, and a second
immediate invocation recovers nothing. -/
theorem recover_stale_jobs_spec (now : Int) (q : List Job) :
    (∀ j : Job, isStale now j = true ↔
        (j.status = .processing ∧ ∃ s, j.started_at = some s ∧ s < now - 30 * 60))
    ∧ ((recover_stale_jobs now q).2 =
        q.map fun x => if isStale now x then recoverUpdate x else x)
    ∧ (∀ j : Job,
        (recoverUpdate j).status = .pending
        ∧ (recoverUpdate j).started_at = none
        ∧ (recoverUpdate j).retry_count = j.retry_count + 1
        ∧ (recoverUpdate j).error_message = some "Job recovered from stale state")
    ∧ ((recover_stale_jobs now q).1 = (q.filter (isStale now)).length)
    ∧ ((recover_stale_jobs now (recover_stale_jobs now q).2).1 = 0) := by
  refine ⟨?_, rfl, fun j => ⟨rfl, rfl, rfl, rfl⟩, rfl, ?_⟩
  · intro j
    unfold isStale
    cases hst : j.started_at <;> simp [JOB_STALE_MINUTES, hst]
  · have key : ∀ l : List Job,
        ((l.map fun x => if isStale now x then recoverUpdate x else x).filter
          (isStale now)) = [] := by
      intro l
      induction l with
      | nil => rfl
      | cons x xs ih =>
          simp only [List.map_cons, List.filter_cons]
          cases hst : isStale now x with
          | true =>
              have hrec : isStale now (recoverUpdate x) = false := rfl
              simpa [hrec] using ih
          | false => simpa [hst] using ih
    show ((((q.map fun x => if isStale now x then recoverUpdate x else x)).filter
      (isStale now)).length) = 0
    rw [key q]
    rfl

/-- Witness for C8 at a concrete queue holding one stale job: the second
recovery pass recovers nothing. -/
theorem recover_stale_jobs_spec_witness :
    (recover_stale_jobs 4000 (recover_stale_jobs 4000 [jobStale]).2).1 = 0 :=
  (recover_stale_jobs_spec 4000 [jobStale]).2.2.2.2

/-! ## Claim C1: fetch_next_job claim order -/

lemma selectMin_cons_none (j : Job) (rest : List Job)
    (h : selectMin rest = none) : selectMin (j :: rest) = some j := by
  unfold selectMin
  rw [h]

lemma selectMin_cons_some (j : Job) (rest : List Job) (m : Job)
    (h : selectMin rest = some m) :
    selectMin (j :: rest) = if claimKey m < claimKey j then some m else some j := by
  unfold selectMin
  rw [h]

lemma selectMin_eq_none_iff (l : List Job) : selectMin l = none ↔ l = [] := by
  cases l with
  | nil => simp [selectMin]
  | cons j rest =>
      constructor
      · intro h
        cases hm : selectMin rest with
        | none => rw [selectMin_cons_none j rest hm] at h; simp at h
        | some m =>
            rw [selectMin_cons_some j rest m hm] at h
            split at h <;> simp at h
      · intro h
        simp at h

lemma selectMin_mem : ∀ {l : List Job} {m : Job}, selectMin l = some m → m ∈ l := by
  intro l
  induction l with
  | nil => intro m h; simp [selectMin] at h
  | cons j rest ih =>
      intro m h
      cases hm : selectMin rest with
      | none =>
          rw [selectMin_cons_none j rest hm] at h
          injection h with h
          exact h ▸ List.mem_cons_self _ _
      | some m₀ =>
          rw [selectMin_cons_some j rest m₀ hm] at h
          split at h
          · injection h with h
            exact List.mem_cons_of_mem _ (h ▸ ih hm)
          · injection h with h
            exact h ▸ List.mem_cons_self _ _

lemma selectMin_min : ∀ {l : List Job} {m : Job}, selectMin l = some m →
    ∀ x ∈ l, ¬ claimKey x < claimKey m := by
  intro l
  induction l with
  | nil => intro m _ x hx; simp at hx
  | cons j rest ih =>
      intro m h x hx
      cases hm : selectMin rest with
      | none =>
          have hrest : rest = [] := (selectMin_eq_none_iff rest).mp hm
          rw [selectMin_cons_none j rest hm] at h
          injection h with h
          subst h
          subst hrest
          rcases List.mem_cons.mp hx with rfl | hxr
          · exact lt_irrefl _
          · simp at hxr
      | some m₀ =>
          rw [selectMin_cons_some j rest m₀ hm] at h
          split at h
          · rename_i hlt
            injection h with h
            subst h
            rcases List.mem_cons.mp hx with rfl | hxr
            · exact lt_asymm hlt
            · exact ih hm x hxr
          · rename_i hlt
            injection h with h
            subst h
            rcases List.mem_cons.mp hx with rfl | hxr
            · exact lt_irrefl _
            · have h₁ : claimKey x < claimKey j → claimKey x < claimKey m₀ :=
                fun hc => lt_of_lt_of_le hc (le_of_not_lt hlt)
              exact fun hc => ih hm x hxr (h₁ hc)

/-- C1 counterexample: with a fresh job A (no `next_retry_at`, created
first) and a retry-due job B (due at 5, created later), at time 10 the
code claims B, although A strictly precedes B in the claim's order
(`next_retry_at` ascending with *nulls first*, then `created_at`): the
source orders `NULLS LAST`, so the returned job is not minimal under the
claimed order. -/
theorem fetch_next_job_nulls_first_refuted :
    (fetch_next_job 10 [jobA, jobB]).1
        = some { jobB with status := .processing, started_at := some 10 }
    ∧ eligible 10 jobA = true
    ∧ specNullsFirstKey jobA < specNullsFirstKey jobB
    ∧ jobA.id ≠ jobB.id := by
  refine ⟨rfl, rfl, by decide, by decide⟩

/-- C1 (amended): `fetch_next_job` returns null exactly when no Pending
job is eligible (`next_retry_at` null or ≤ now); otherwise it returns an
eligible Pending job minimal under (`next_retry_at` ascending with nulls
**last**, then `created_at` ascending), transitioned to Processing with
`started_at` stamped, rewriting exactly that row. -/
theorem fetch_next_job_spec (now : Int) (q : List Job) :
    (∀ j : Job, eligible now j = true ↔
        (j.status = .pending ∧
          (j.next_retry_at = none ∨ ∃ t, j.next_retry_at = some t ∧ t ≤ now)))
    ∧ ((fetch_next_job now q).1 = none ↔ ∀ j ∈ q, eligible now j = false)
    ∧ ((fetch_next_job now q).1 = none → (fetch_next_job now q).2 = q)
    ∧ (∀ j', (fetch_next_job now q).1 = some j' →
        ∃ j ∈ q, eligible now j = true
          ∧ j.status = .pending
          ∧ (∀ x ∈ q, eligible now x = true → ¬ claimKey x < claimKey j)
          ∧ j' = { j with status := .processing, started_at := some now }
          ∧ (fetch_next_job now q).2 =
              q.map fun x => if x.id == j.id then j' else x) := by
  refine ⟨?_, ?_⟩
  · intro j
    unfold eligible
    cases hn : j.next_retry_at <;> simp [hn]
  · unfold fetch_next_job
    cases hsel : selectMin (q.filter (eligible now)) with
    | none =>
        have hfil : q.filter (eligible now) = [] :=
          (selectMin_eq_none_iff _).mp hsel
        refine ⟨?_, fun _ => rfl, ?_⟩
        · constructor
          · intro _ j hj
            by_contra hne
            have : j ∈ q.filter (eligible now) :=
              List.mem_filter.mpr ⟨hj, by simpa using hne⟩
            rw [hfil] at this
            simp at this
          · intro _; rfl
        · intro j' h
          simp at h
    | some j =>
        have hmem := selectMin_mem hsel
        have hjq : j ∈ q := (List.mem_filter.mp hmem).1
        have hje : eligible now j = true := (List.mem_filter.mp hmem).2
        refine ⟨?_, ?_, ?_⟩
        · constructor
          · intro h; simp at h
          · intro h
            have := h j hjq
            rw [hje] at this
            simp at this
        · intro h; simp at h
        · intro j' h
          simp only [Option.some.injEq] at h
          subst h
          refine ⟨j, hjq, hje, ?_, ?_, rfl, rfl⟩
          · have := hje
            unfold eligible at this
            simp only [Bool.and_eq_true, beq_iff_eq] at this
            exact this.1
          · intro x hxq hxe
            exact selectMin_min hsel x (List.mem_filter.mpr ⟨hxq, hxe⟩)

/-- Witness for C1 (amended), at the two-job queue of the
counterexample: the fetched job is the retry-due one and it is minimal
under the nulls-last order. -/
theorem fetch_next_job_spec_witness :
    ∃ j ∈ [jobA, jobB], eligible 10 j = true
      ∧ j.status = .pending
      ∧ (∀ x ∈ [jobA, jobB], eligible 10 x = true → ¬ claimKey x < claimKey j)
      ∧ ({ jobB with status := .processing, started_at := some 10 } : Job)
          = { j with status := .processing, started_at := some 10 }
      ∧ (fetch_next_job 10 [jobA, jobB]).2 =
          [jobA, jobB].map fun x =>
            if x.id == j.id
            then { jobB with status := .processing, started_at := some 10 } else x :=
  (fetch_next_job_spec 10 [jobA, jobB]).2.2.2
    { jobB with status := .processing, started_at := some 10 } rfl

/-! ## Claim C2: state machine and retry ceiling -/

lemma statusStepOK_refl (s : JobStatus) : statusStepOK s s := Or.inl rfl

lemma forall₂_map_self {P : Job → Job → Prop} (q : List Job) (f : Job → Job)
    (h : ∀ x ∈ q, P x (f x)) : List.Forall₂ P q (q.map f) := by
  induction q with
  | nil => exact List.Forall₂.nil
  | cons a l ih =>
      exact List.Forall₂.cons (h a (List.mem_cons_self _ _))
        (ih fun x hx => h x (List.mem_cons_of_mem _ hx))

lemma eligible_pending {now : Int} {j : Job} (h : eligible now j = true) :
    j.status = .pending := by
  unfold eligible at h
  simp only [Bool.and_eq_true, beq_iff_eq] at h
  exact h.1

lemma isStale_processing {now : Int} {j : Job} (h : isStale now j = true) :
    j.status = .processing := by
  unfold isStale at h
  simp only [Bool.and_eq_true, beq_iff_eq] at h
  exact h.1

lemma step_p_proc {o n : JobStatus} (h1 : o = .pending) (h2 : n = .processing) :
    statusStepOK o n := Or.inr (Or.inl ⟨h1, h2⟩)

lemma step_proc_term {o n : JobStatus} (h1 : o = .processing)
    (h2 : n = .completed ∨ n = .failed ∨ n = .deadLetter) :
    statusStepOK o n := Or.inr (Or.inr (Or.inl ⟨h1, h2⟩))

lemma step_proc_p {o n : JobStatus} (h1 : o = .processing) (h2 : n = .pending) :
    statusStepOK o n := Or.inr (Or.inr (Or.inr ⟨h1, h2⟩))

lemma add_job_ceil (now : Int) (fid : Nat) (t : JobType) (p : Payload)
    (dk : Option String) (q : List Job) (h : ceilInv q) :
    ceilInv (add_job now fid t p dk q).2 := by
  unfold add_job
  cases dk with
  | none =>
      intro x hx
      rcases List.mem_append.mp hx with hq | hn
      · exact h x hq
      · rcases List.mem_singleton.mp hn with rfl
        exact by norm_num [JOB_MAX_RETRIES]
  | some k =>
      dsimp only
      split
      · exact h
      · intro x hx
        rcases List.mem_append.mp hx with hq | hn
        · exact h x hq
        · rcases List.mem_singleton.mp hn with rfl
          exact by norm_num [JOB_MAX_RETRIES]

lemma complete_job_ceil (now : Int) (jobId : Nat) (e : Option String)
    (s : Option JobStatus) (q : List Job) (h : ceilInv q) :
    ceilInv (complete_job now jobId e s q) := by
  intro y hy
  rcases List.mem_map.mp hy with ⟨x, hxq, rfl⟩
  by_cases hid : (x.id == jobId) = true
  · rw [if_pos hid]
    exact h x hxq
  · rw [if_neg hid]
    exact h x hxq

lemma fetch_next_job_ceil (now : Int) (q : List Job) (h : ceilInv q) :
    ceilInv (fetch_next_job now q).2 := by
  unfold fetch_next_job
  cases hsel : selectMin (q.filter (eligible now)) with
  | none => exact h
  | some j =>
      intro y hy
      rcases List.mem_map.mp hy with ⟨x, hxq, rfl⟩
      have hjq : j ∈ q := (List.mem_filter.mp (selectMin_mem hsel)).1
      by_cases hid : (x.id == j.id) = true
      · rw [if_pos hid]
        exact h j hjq
      · rw [if_neg hid]
        exact h x hxq

lemma handleAdd_jobs_ceil (env : HandlerEnv) (now : Int) (fb : String)
    (f₁ f₂ : Nat) (path : String) (st st' : SysState)
    (h : ceilInv st.jobs)
    (hadd : handleAdd env now fb f₁ f₂ path st = .ok st') :
    ceilInv st'.jobs := by
  simp only [handleAdd] at hadd
  split at hadd
  · injection hadd with hadd; exact hadd ▸ h
  · split at hadd
    · injection hadd with hadd; exact hadd ▸ h
    · split at hadd
      · exact absurd hadd (by simp)
      · split at hadd
        · split at hadd
          · injection hadd with hadd
            subst hadd
            exact h
          · injection hadd with hadd; exact hadd ▸ h
        · split at hadd
          · injection hadd with hadd
            subst hadd
            exact h
          · injection hadd with hadd
            subst hadd
            split
            · exact add_job_ceil _ _ _ _ _ _
                (add_job_ceil _ _ _ _ _ _ h)
            · exact add_job_ceil _ _ _ _ _ _ h

lemma dispatch_jobs_ceil (env : HandlerEnv) (now : Int) (fb : String)
    (f₁ f₂ : Nat) (j : Job) (st st' : SysState)
    (h : ceilInv st.jobs)
    (hd : dispatch env now fb f₁ f₂ j st = .ok st') :
    ceilInv st'.jobs := by
  unfold dispatch at hd
  split at hd
  · unfold ingestProcessJob at hd
    split at hd
    · injection hd with hd; exact hd ▸ h
    · split at hd
      · injection hd with hd; exact hd ▸ h
      · exact handleAdd_jobs_ceil env now fb f₁ f₂ _ st st' h hd
      · injection hd with hd; exact hd ▸ h
  · cases hm : metadataProcessJob env now j.payload st.books <;>
      rw [hm] at hd <;> simp [Except.map] at hd
    exact hd ▸ h
  · cases hm : conversionProcessJob env now j.payload st.books <;>
      rw [hm] at hd <;> simp [Except.map] at hd
    exact hd ▸ h

/-- C2 counterexample: a stale `Processing` job already at the retry
ceiling (`retry_count = max_retries = 3`) is returned to `Pending` by
`recover_stale_jobs` with `retry_count = 4 > max_retries`, so the ceiling
"retry_count never exceeds max_retries before DeadLetter" is not
preserved by crash recovery. -/
theorem recover_exceeds_retry_ceiling :
    ∃ j' : Job, (recover_stale_jobs 4000 [jobStale]).2 = [j']
      ∧ j'.status = .pending
      ∧ j'.max_retries < j'.retry_count
      ∧ jobStale.retry_count = jobStale.max_retries
      ∧ jobStale.status = .processing :=
  ⟨recoverUpdate jobStale, rfl, rfl, by norm_num [recoverUpdate, jobStale], rfl, rfl⟩

/-- C2 (amended): every queue operation, invoked as the worker invokes
it, moves each row along the state machine `Pending → Processing →
{Completed, Failed, DeadLetter}` / `Processing → Pending` only;
`add_job`, `fetch_next_job` and `complete_job` preserve the ceiling
`retry_count ≤ max_retries`, as does the worker's retry/dead-letter
resolution of a claimed job; but `recover_stale_jobs` increments a stale
job's `retry_count` unconditionally, guaranteeing only
`retry_count ≤ max_retries + 1` after one pass — the retry ceiling is
*not* preserved by crash recovery. -/
theorem job_state_machine_spec :
    (∀ (now : Int) (q : List Job), (q.map Job.id).Nodup →
        jobsStep q (fetch_next_job now q).2)
    ∧ (∀ (now : Int) (jobId : Nat) (e : Option String) (s : Option JobStatus)
          (q : List Job),
        (s = none ∨ s = some .failed ∨ s = some .deadLetter) →
        (∀ x ∈ q, x.id = jobId → x.status = .processing) →
        jobsStep q (complete_job now jobId e s q))
    ∧ (∀ (now : Int) (jobId : Nat) (e : String) (d : Option Int) (q : List Job),
        (∀ x ∈ q, x.id = jobId → x.status = .processing) →
        jobsStep q (retry_job now jobId e d q))
    ∧ (∀ (now : Int) (q : List Job), jobsStep q (recover_stale_jobs now q).2)
    ∧ (∀ (now : Int) (fid : Nat) (t : JobType) (p : Payload) (dk : Option String)
          (q : List Job),
        ∃ tail, (add_job now fid t p dk q).2 = q ++ tail
          ∧ ∀ x ∈ tail, x.status = .pending ∧ x.retry_count = 0
              ∧ x.retry_count ≤ x.max_retries)
    ∧ (∀ (now : Int) (fid : Nat) (t : JobType) (p : Payload) (dk : Option String)
          (q : List Job), ceilInv q → ceilInv (add_job now fid t p dk q).2)
    ∧ (∀ (now : Int) (q : List Job), ceilInv q → ceilInv (fetch_next_job now q).2)
    ∧ (∀ (now : Int) (jobId : Nat) (e : Option String) (s : Option JobStatus)
          (q : List Job), ceilInv q → ceilInv (complete_job now jobId e s q))
    ∧ (∀ (env : HandlerEnv) (now : Int) (fb : String) (f₁ f₂ : Nat) (j : Job)
          (st : SysState),
        ceilInv st.jobs →
        (∀ x ∈ st.jobs, x.id = j.id →
            x.retry_count = j.retry_count ∧ x.max_retries = j.max_retries) →
        ceilInv (workerHandleClaimed env now fb f₁ f₂ j st).jobs)
    ∧ (∀ (now : Int) (q : List Job), ceilInv q →
        ∀ x ∈ (recover_stale_jobs now q).2, x.retry_count ≤ x.max_retries + 1) := by
  refine ⟨?_, ?_, ?_, ?_, ?_, add_job_ceil, fetch_next_job_ceil,
    complete_job_ceil, ?_, ?_⟩
  · -- fetch_next_job transitions
    intro now q hnd
    unfold fetch_next_job
    cases hsel : selectMin (q.filter (eligible now)) with
    | none => exact List.forall₂_same.mpr fun x _ => statusStepOK_refl _
    | some j =>
        have hmem := selectMin_mem hsel
        have hjq : j ∈ q := (List.mem_filter.mp hmem).1
        have hje : eligible now j = true := (List.mem_filter.mp hmem).2
        refine forall₂_map_self q _ fun x hx => ?_
        by_cases hid : (x.id == j.id) = true
        · rw [if_pos hid]
          have hxj : x = j :=
            List.inj_on_of_nodup_map hnd hx hjq (beq_iff_eq.mp hid)
          exact step_p_proc (hxj ▸ eligible_pending hje) rfl
        · rw [if_neg hid]
          exact statusStepOK_refl _
  · -- complete_job transitions under the worker call pattern
    intro now jobId e s q hs hproc
    refine forall₂_map_self q _ fun x hx => ?_
    by_cases hid : (x.id == jobId) = true
    · rw [if_pos hid]
      have hp := hproc x hx (beq_iff_eq.mp hid)
      rcases hs with rfl | rfl | rfl
      · cases e with
        | none => exact step_proc_term hp (Or.inl rfl)
        | some err => exact step_proc_term hp (Or.inr (Or.inl rfl))
      · exact step_proc_term hp (Or.inr (Or.inl rfl))
      · exact step_proc_term hp (Or.inr (Or.inr rfl))
    · rw [if_neg hid]
      exact statusStepOK_refl _
  · -- retry_job transitions under the worker call pattern
    intro now jobId e d q hproc
    refine forall₂_map_self q _ fun x hx => ?_
    by_cases hid : (x.id == jobId) = true
    · rw [if_pos hid]
      exact step_proc_p (hproc x hx (beq_iff_eq.mp hid)) rfl
    · rw [if_neg hid]
      exact statusStepOK_refl _
  · -- recover_stale_jobs transitions
    intro now q
    refine forall₂_map_self q _ fun x hx => ?_
    by_cases hst : isStale now x = true
    · rw [if_pos hst]
      exact step_proc_p (isStale_processing hst) rfl
    · rw [if_neg hst]
      exact statusStepOK_refl _
  · -- add_job appends at most one fresh Pending row
    intro now fid t p dk q
    unfold add_job
    cases dk with
    | none =>
        refine ⟨_, rfl, fun x hx => ?_⟩
        rcases List.mem_singleton.mp hx with rfl
        exact ⟨rfl, rfl, by norm_num [JOB_MAX_RETRIES]⟩
    | some k =>
        dsimp only
        split
        · exact ⟨[], by simp, fun x hx => by simp at hx⟩
        · refine ⟨_, rfl, fun x hx => ?_⟩
          rcases List.mem_singleton.mp hx with rfl
          exact ⟨rfl, rfl, by norm_num [JOB_MAX_RETRIES]⟩
  · -- worker resolution preserves the ceiling
    intro env now fb f₁ f₂ j st hceil hlink
    unfold workerHandleClaimed
    cases hd : dispatch env now fb f₁ f₂ j st with
    | ok st' =>
        exact complete_job_ceil _ _ _ _ _
          (dispatch_jobs_ceil env now fb f₁ f₂ j st st' hceil hd)
    | error e =>
        dsimp only
        split
        · rename_i hcond
          intro y hy
          rcases List.mem_map.mp hy with ⟨x, hxq, rfl⟩
          by_cases hid : (x.id == j.id) = true
          · rw [if_pos hid]
            have hl := hlink x hxq (beq_iff_eq.mp hid)
            show x.retry_count + 1 ≤ x.max_retries
            rw [hl.1, hl.2]
            exact hcond
          · rw [if_neg hid]
            exact hceil x hxq
        · exact complete_job_ceil _ _ _ _ _ hceil
  · -- recover_stale_jobs bounds the ceiling only by one extra
    intro now q hceil y hy
    rcases List.mem_map.mp hy with ⟨x, hxq, rfl⟩
    by_cases hst : isStale now x = true
    · rw [if_pos hst]
      exact Nat.succ_le_succ (hceil x hxq)
    · rw [if_neg hst]
      exact le_trans (hceil x hxq) (Nat.le_succ _)

/-- Witness for C2 (amended) at concrete inputs: recovery of the stale
job at the ceiling conforms to the state machine, and the worker-pattern
completion of a Processing job steps the machine. -/
theorem job_state_machine_spec_witness :
    jobsStep [jobStale] (recover_stale_jobs 4000 [jobStale]).2
    ∧ jobsStep [jobStale] (complete_job 0 7 none none [jobStale])
    ∧ ceilInv (fetch_next_job 10 [jobA, jobB]).2 := by
  refine ⟨job_state_machine_spec.2.2.2.1 4000 [jobStale], ?_, ?_⟩
  · refine job_state_machine_spec.2.1 0 7 none none [jobStale] (Or.inl rfl) ?_
    intro x hx _
    rcases List.mem_singleton.mp hx with rfl
    rfl
  · refine job_state_machine_spec.2.2.2.2.2.2.1 10 [jobA, jobB] ?_
    intro x hx
    rcases List.mem_cons.mp hx with rfl | hx
    · exact Nat.zero_le _
    · rcases List.mem_singleton.mp hx with rfl
      exact Nat.zero_le _

/-! ## Claim C3: hybrid sync merge -/

lemma sync_library_core_entries (c : WireCodec) (tc : TimeCodec) (now : Int)
    (books : List Book) (tok : KoboSyncToken) (status : Nat)
    (hdrs : List (String × String)) (ents : List String) :
    (sync_library_core c tc now books tok status hdrs ents).entries =
      ((books.filter fun b => !b.is_deleted &&
          (match localCursor tc tok with
           | none => true
           | some t => decide (t < b.updated_at))).map bookToEntitlement)
      ++ ((match localCursor tc tok with
           | none => ([] : List Book)
           | some t =>
               books.filter fun b => b.is_deleted && decide (t < b.updated_at)).map
          fun (b : Book) => SyncEntry.removeE b.id)
      ++ (if status == 200 then ents.map SyncEntry.upstream else []) := by
  simp only [sync_library_core]
  cases hcur : localCursor tc tok <;> cases hs : status == 200 <;>
    simp [hcur, hs, List.append_assoc]

lemma sync_library_core_token (c : WireCodec) (tc : TimeCodec) (now : Int)
    (books : List Book) (tok : KoboSyncToken) (status : Nat)
    (hdrs : List (String × String)) (ents : List String) :
    (sync_library_core c tc now books tok status hdrs ents).token =
      { lastSuccessfulSyncPointId := some (tc.formatISO now)
        ongoingSyncPointId := none
        rawKoboSyncToken :=
          match dictGet "X-Kobo-SyncToken" hdrs with
          | some h => (from_base64 c h).rawKoboSyncToken
          | none => tok.rawKoboSyncToken } := by
  simp only [sync_library_core]
  cases hg : dictGet "X-Kobo-SyncToken" hdrs <;> simp [hg]

/-- C3: for every catalog state and decoded local cursor, the sync
response is exactly: one new/updated entitlement per non-deleted book
strictly past the cursor (every non-deleted book on a cold start), each
carrying `EntitlementId = book id`; then removal entries for deleted
books strictly past the cursor, emitted only when a cursor existed (never
on a cold start); then the upstream-returned entries verbatim, after all
local entries. -/
theorem sync_merge_spec (c : WireCodec) (tc : TimeCodec) (now : Int)
    (books : List Book) (tok : KoboSyncToken) (status : Nat)
    (hdrs : List (String × String)) (ents : List String) :
    ((sync_library_core c tc now books tok status hdrs ents).entries =
      ((books.filter fun b => !b.is_deleted &&
          (match localCursor tc tok with
           | none => true
           | some t => decide (t < b.updated_at))).map bookToEntitlement)
      ++ ((match localCursor tc tok with
           | none => ([] : List Book)
           | some t =>
               books.filter fun b => b.is_deleted && decide (t < b.updated_at)).map
          fun (b : Book) => SyncEntry.removeE b.id)
      ++ (if status == 200 then ents.map SyncEntry.upstream else []))
    ∧ (∀ b : Book, ∃ e : NewEnt, bookToEntitlement b = .newE e
        ∧ e.entitlementId = b.id ∧ e.id = b.id)
    ∧ (∀ b ∈ books, b.is_deleted = false →
        (∀ t, localCursor tc tok = some t → t < b.updated_at) →
        bookToEntitlement b ∈
          (sync_library_core c tc now books tok status hdrs ents).entries)
    ∧ (localCursor tc tok = none →
        ∀ s, SyncEntry.removeE s ∉
          (sync_library_core c tc now books tok status hdrs ents).entries)
    ∧ (∀ t, localCursor tc tok = some t →
        ∀ b ∈ books, b.is_deleted = true → t < b.updated_at →
          SyncEntry.removeE b.id ∈
            (sync_library_core c tc now books tok status hdrs ents).entries) := by
  refine ⟨sync_library_core_entries c tc now books tok status hdrs ents,
    fun b => ⟨_, rfl, rfl, rfl⟩, ?_, ?_, ?_⟩
  · intro b hb hdel hcur
    rw [sync_library_core_entries]
    refine List.mem_append.mpr (Or.inl (List.mem_append.mpr (Or.inl ?_)))
    refine List.mem_map_of_mem _ (List.mem_filter.mpr ⟨hb, ?_⟩)
    cases hc : localCursor tc tok with
    | none => simp [hdel]
    | some t => simp [hdel, hcur t hc]
  · intro hnone s hmem
    rw [sync_library_core_entries, hnone] at hmem
    simp only [List.map_nil, List.append_nil] at hmem
    rcases List.mem_append.mp hmem with hloc | hup
    · rcases List.mem_map.mp hloc with ⟨b, _, heq⟩
      simp [bookToEntitlement] at heq
    · split at hup
      · rcases List.mem_map.mp hup with ⟨raw, _, heq⟩
        simp at heq
      · simp at hup
  · intro t ht b hb hdel hlt
    rw [sync_library_core_entries, ht]
    refine List.mem_append.mpr (Or.inl (List.mem_append.mpr (Or.inr ?_)))
    exact List.mem_map_of_mem _ (List.mem_filter.mpr ⟨hb, by simp [hdel, hlt]⟩)

/-- Witness for C3 at a concrete two-book catalog with cursor 6: the
deleted book updated at 7 yields a removal entry, and on a cold start no
removal entry exists. -/
theorem sync_merge_spec_witness :
    SyncEntry.removeE bookDel.id ∈
      (sync_library_core failCodec { parseISO := fun _ => some 6, formatISO := fun _ => "NOW" }
        9 [bookX, bookDel] { lastSuccessfulSyncPointId := some "c" } 200 [] []).entries
    ∧ bookToEntitlement bookX ∈
      (sync_library_core failCodec tcTriv 9 [bookX, bookDel]
        KoboSyncToken.empty 200 [] []).entries
    ∧ (∀ s, SyncEntry.removeE s ∉
        (sync_library_core failCodec tcTriv 9 [bookX, bookDel]
          KoboSyncToken.empty 200 [] []).entries) := by
  refine ⟨?_, ?_, ?_⟩
  · exact (sync_merge_spec failCodec
      { parseISO := fun _ => some 6, formatISO := fun _ => "NOW" } 9 [bookX, bookDel]
      { lastSuccessfulSyncPointId := some "c" } 200 [] []).2.2.2.2 6 rfl bookDel
      (by simp) rfl (by norm_num [bookDel])
  · exact (sync_merge_spec failCodec tcTriv 9 [bookX, bookDel]
      KoboSyncToken.empty 200 [] []).2.2.1 bookX (by simp) rfl
      (fun t ht => by simp [localCursor, KoboSyncToken.empty] at ht)
  · exact (sync_merge_spec failCodec tcTriv 9 [bookX, bookDel]
      KoboSyncToken.empty 200 [] []).2.2.2.1 rfl

/-! ## Claim C4: upstream failure degrades to local-only sync -/

lemma dictGet_filtered_none (hs : List (String × String))
    (h : httpxGet "X-Kobo-SyncToken" hs = none) :
    dictGet "X-Kobo-SyncToken"
      (hs.filter fun kv =>
        (pyStartsWith (pyLower kv.1) "x-kobo-") || pyLower kv.1 == "content-type")
      = none := by
  have hnone : hs.find?
      (fun kv => pyLower kv.1 == pyLower "X-Kobo-SyncToken") = none := by
    unfold httpxGet at h
    exact Option.map_eq_none'.mp h
  have hf : (hs.filter fun kv =>
      (pyStartsWith (pyLower kv.1) "x-kobo-") || pyLower kv.1 == "content-type").find?
        (fun kv => kv.1 == "X-Kobo-SyncToken") = none := by
    apply List.find?_eq_none.mpr
    intro kv hkv
    have hmem := (List.mem_filter.mp hkv).1
    intro hbeq
    have hk : kv.1 = "X-Kobo-SyncToken" := beq_iff_eq.mp hbeq
    apply List.find?_eq_none.mp hnone kv hmem
    rw [hk]
    rfl
  unfold dictGet
  rw [hf]
  rfl

/-- C4 (amended): when the upstream proxy call raises, or returns a
non-success status *without* an `X-Kobo-SyncToken` response header, the
endpoint returns exactly the locally-computed entries, leaves
`rawKoboSyncToken` at the client's value, and still advances
`lastSuccessfulSyncPointId` to now, clearing `ongoingSyncPointId`.  (A
non-success upstream response that does carry that header advances the
raw token — see the counterexample.) -/
theorem sync_upstream_failure_degrades (c : WireCodec) (tc : TimeCodec)
    (now : Int) (books : List Book) (tok : KoboSyncToken)
    (upstream : Except String UpstreamResp)
    (hfail : (∃ e, upstream = .error e)
      ∨ (∃ resp, upstream = .ok resp ∧ resp.status ≠ 200
          ∧ httpxGet "X-Kobo-SyncToken" resp.headers = none)) :
    ((sync_pipeline c tc now books tok upstream).entries =
      ((books.filter fun b => !b.is_deleted &&
          (match localCursor tc tok with
           | none => true
           | some t => decide (t < b.updated_at))).map bookToEntitlement)
      ++ ((match localCursor tc tok with
           | none => ([] : List Book)
           | some t =>
               books.filter fun b => b.is_deleted && decide (t < b.updated_at)).map
          fun (b : Book) => SyncEntry.removeE b.id))
    ∧ (sync_pipeline c tc now books tok upstream).token.rawKoboSyncToken
        = tok.rawKoboSyncToken
    ∧ (sync_pipeline c tc now books tok upstream).token.lastSuccessfulSyncPointId
        = some (tc.formatISO now)
    ∧ (sync_pipeline c tc now books tok upstream).token.ongoingSyncPointId
        = none := by
  rcases hfail with ⟨e, rfl⟩ | ⟨resp, rfl, hstat, hhdr⟩
  · have hpipe : sync_pipeline c tc now books tok (.error e) =
        sync_library_core c tc now books tok 502
          [("content-type", "application/json")] [] := rfl
    rw [hpipe]
    refine ⟨?_, ?_, ?_, ?_⟩
    · rw [sync_library_core_entries]
      simp
    · rw [sync_library_core_token]
      rfl
    · rw [sync_library_core_token]
    · rw [sync_library_core_token]
  · have hs200 : (resp.status == 200) = false := beq_eq_false_iff_ne.mpr hstat
    have hpr : proxy_request_sync c tok (.ok resp) =
        (resp.status,
         resp.headers.filter fun kv =>
           (pyStartsWith (pyLower kv.1) "x-kobo-") || pyLower kv.1 == "content-type",
         resp.bodyEnts) := by
      simp only [proxy_request_sync, hhdr]
    have hfetch : fetch_kobo_sync c tok (.ok resp) =
        (resp.status,
         resp.headers.filter fun kv =>
           (pyStartsWith (pyLower kv.1) "x-kobo-") || pyLower kv.1 == "content-type",
         []) := by
      unfold fetch_kobo_sync
      rw [hpr]
      simp [hs200]
    have hpipe : sync_pipeline c tc now books tok (.ok resp) =
        sync_library_core c tc now books tok resp.status
          (resp.headers.filter fun kv =>
            (pyStartsWith (pyLower kv.1) "x-kobo-") || pyLower kv.1 == "content-type")
          [] := by
      unfold sync_pipeline
      rw [hfetch]
    rw [hpipe]
    refine ⟨?_, ?_, ?_, ?_⟩
    · rw [sync_library_core_entries]
      simp
    · rw [sync_library_core_token]
      have := dictGet_filtered_none resp.headers hhdr
      dsimp only
      rw [this]
    · rw [sync_library_core_token]
    · rw [sync_library_core_token]

/-- C4 counterexample: an upstream response with status 500 that carries
an `X-Kobo-SyncToken` header makes the endpoint overwrite
`rawKoboSyncToken` with the upstream's new cursor — the header
processing at routes.py 175–177 is not gated on the status — refuting
"the rawKoboSyncToken field is not advanced" for every non-success
response. -/
theorem sync_nonsuccess_with_header_advances_raw :
    (sync_pipeline codecC4 tcTriv 0 [] tokC4 (.ok respC4)).token.rawKoboSyncToken
        = some "RAWUP"
    ∧ tokC4.rawKoboSyncToken = some "OLD"
    ∧ respC4.status ≠ 200 :=
  ⟨rfl, rfl, by norm_num [respC4]⟩

/-- Witness for C4 (amended), at a raised upstream call on a concrete
catalog: the raw cursor is untouched and the local cursor advances. -/
theorem sync_upstream_failure_degrades_witness :
    (sync_pipeline failCodec tcTriv 3 [bookX] KoboSyncToken.empty
        (.error "down")).token.rawKoboSyncToken
      = KoboSyncToken.empty.rawKoboSyncToken
    ∧ (sync_pipeline failCodec tcTriv 3 [bookX] KoboSyncToken.empty
        (.error "down")).token.lastSuccessfulSyncPointId
      = some (tcTriv.formatISO 3) :=
  ⟨(sync_upstream_failure_degrades failCodec tcTriv 3 [bookX] KoboSyncToken.empty
      (.error "down") (Or.inl ⟨"down", rfl⟩)).2.1,
   (sync_upstream_failure_degrades failCodec tcTriv 3 [bookX] KoboSyncToken.empty
      (.error "down") (Or.inl ⟨"down", rfl⟩)).2.2.1⟩

/-! ## Claim C9: reading-state update -/

/-- C9 evidence: the creation path materializes the incoming fields into
a fresh row, but for a book that already has a `ReadingState` row the
handler leaves the stored row untouched — the field-application block of
`update_reading_state` sits inside the `if not state:` branch (routes.py
415–444), so the incoming 50% bookmark is never written to the existing
row, contradicting the endpoint's own docstring ("For local books:
updates database"). -/
theorem reading_state_existing_row_not_updated :
    update_reading_state_local 100 "B" incProgress [rsExisting] = [rsExisting]
    ∧ rsExisting.progress_percent = 0
    ∧ (applyIncoming 100 incProgress rsExisting).progress_percent = 50
    ∧ update_reading_state_local 100 "B" incProgress []
        = [applyIncoming 100 incProgress { book_id := "B" }] :=
  ⟨rfl, rfl, rfl, rfl⟩

/-! ## Claim C10: malformed handler payloads complete cleanly -/

/-- C10: for a claimed job whose payload is in the malformed class — an
ingest payload with a falsy path or an event other than `ADD`/`DELETE`, a
metadata/convert payload whose `book_id` is falsy or is a UUID matching
no book — the handler returns normally without touching the catalog, and
the worker resolves the job with a plain `complete_job` (status
`Completed`, not a retry, not a failure). -/
theorem malformed_payload_completes (env : HandlerEnv) (now : Int)
    (fb : String) (f₁ f₂ : Nat) (j : Job) (st : SysState)
    (h : malformedFor env st.books j) :
    dispatch env now fb f₁ f₂ j st = .ok st
    ∧ workerHandleClaimed env now fb f₁ f₂ j st
        = { st with jobs := complete_job now j.id none none st.jobs }
    ∧ (workerHandleClaimed env now fb f₁ f₂ j st).books = st.books
    ∧ (∀ x ∈ st.jobs, x.id = j.id →
        (completeUpdate now none none x).status = .completed) := by
  have hd : dispatch env now fb f₁ f₂ j st = .ok st := by
    unfold malformedFor at h
    split at h
    · rename_i hty
      unfold dispatch
      rw [hty]
      show ingestProcessJob env now fb f₁ f₂ j.payload st = .ok st
      unfold ingestProcessJob
      rcases h with hpath | ⟨he1, he2⟩
      · rw [if_pos (by simp [hpath])]
      · cases hp : optStrTruthy j.payload.path with
        | false => rw [if_pos (by simp [hp])]
        | true =>
            rw [if_neg (by simp [hp])]
            split
            · rename_i heq
              exact absurd heq he2
            · rename_i heq
              exact absurd heq he1
            · rfl
    · rename_i hty
      unfold dispatch
      rw [hty]
      show (metadataProcessJob env now j.payload st.books).map
        (fun bks => { st with books := bks }) = .ok st
      have hm : metadataProcessJob env now j.payload st.books = .ok st.books := by
        unfold metadataProcessJob
        rcases h with hbid | ⟨huuid, hnone⟩
        · rw [if_pos (by simp [hbid])]
        · cases hb : optStrTruthy j.payload.book_id with
          | false => rw [if_pos (by simp [hb])]
          | true =>
              rw [if_neg (by simp [hb])]
              rw [if_neg (by simp [huuid])]
              rw [List.find?_eq_none.mpr fun b hbm => by simp [hnone b hbm]]
      rw [hm]
      rfl
    · rename_i hty
      unfold dispatch
      rw [hty]
      show (conversionProcessJob env now j.payload st.books).map
        (fun bks => { st with books := bks }) = .ok st
      have hm : conversionProcessJob env now j.payload st.books = .ok st.books := by
        unfold conversionProcessJob
        rcases h with hbid | ⟨huuid, hnone⟩
        · rw [if_pos (by simp [hbid])]
        · cases hb : optStrTruthy j.payload.book_id with
          | false => rw [if_pos (by simp [hb])]
          | true =>
              rw [if_neg (by simp [hb])]
              rw [if_neg (by simp [huuid])]
              rw [List.find?_eq_none.mpr fun b hbm => by simp [hnone b hbm]]
      rw [hm]
      rfl
  refine ⟨hd, ?_, ?_, fun x _ _ => rfl⟩
  · unfold workerHandleClaimed
    rw [hd]
  · unfold workerHandleClaimed
    rw [hd]

/-- Witness for C10: a metadata job with no `book_id` in its payload, on
a one-job queue, is dispatched to a clean no-op and completed. -/
theorem malformed_payload_completes_witness :
    dispatch envTriv 0 "" 0 0 jobNoBookId ⟨[jobNoBookId], []⟩
        = .ok ⟨[jobNoBookId], []⟩
    ∧ workerHandleClaimed envTriv 0 "" 0 0 jobNoBookId ⟨[jobNoBookId], []⟩
        = { jobs := complete_job 0 jobNoBookId.id none none [jobNoBookId],
            books := [] } :=
  ⟨(malformed_payload_completes envTriv 0 "" 0 0 jobNoBookId
      ⟨[jobNoBookId], []⟩ (Or.inl rfl)).1,
   (malformed_payload_completes envTriv 0 "" 0 0 jobNoBookId
      ⟨[jobNoBookId], []⟩ (Or.inl rfl)).2.1⟩

end Kobosync
